import Mathlib

set_option maxHeartbeats 1000000

/-!
Verification of the webcii ASCII-camera renderer.

This file gives a shallow embedding of the per-frame pipeline of
`src/main.rs` — temporal blending, Sobel edge detection, glyph/color
mapping, row rendering, the diff compositor and the pacing controller —
and proves (or refutes) the properties claimed of it.  Machine integers
are modelled as `ℕ`/`ℤ` (with an explicit `% 256` where the source
truncates to `u8`); the `f32` angle arithmetic of the edge detector is
modelled over the exact reals.
-/

/-- One decoded camera frame (struct `DecodedFrame`, main.rs:41-46): pixel
dimensions and the row-major RGB8 bytes.  In the source the `buffer`
(`ImageBuffer`) and `pixels` (raw `Vec<u8>`) fields hold the same bytes, so
the embedding keeps a single byte list. -/
structure DecodedFrame where
  width : ℕ
  height : ℕ
  pixels : List ℕ

/-- Sobel orientation classes (enum `SobelEdge`, main.rs:33-39). -/
inductive SobelEdge where
  | None
  | Horizontal
  | Vertical
  | DiagonalUp
  | DiagonalDown
deriving DecidableEq

/-- The 70-glyph brightness ramp `ASCII_CHARS` (main.rs:25-30), densest
glyph first, space last. -/
def ASCII_CHARS : List Char :=
  "$@B%8&WM#*oahkbdpqwmZO0QLCJUYXzcvunxrjft/\\|()1\x7b\x7d[]?-_+~<>i!lI;:,\x22^\x60\x27. ".toList

/-- The per-frame time budget in milliseconds (main.rs:31). -/
def TARGET_FRAME_TIME_MS : ℕ := 16

/-- `usize::MAX` on a 64-bit target: the sentinel initial value of
`last_color_idx` (main.rs:257). -/
def USIZE_MAX : ℕ := 2 ^ 64 - 1

/-- The empty string (named so that string literals appear only in
definition bodies). -/
def emptyStr : String := ""

/-- Flat index of the first byte of pixel `(x, y)` in a row-major RGB8
buffer of the given width: the `(y * width + x) * 3` expression of
main.rs:268. -/
def pixelIndex (width x y : ℕ) : ℕ := (y * width + x) * 3

/-- `decoded.get_pixel(x, y)`: the three channel bytes at `(x, y)`. -/
def get_pixel (f : DecodedFrame) (x y : ℕ) : ℕ × ℕ × ℕ :=
  (f.pixels.getD (pixelIndex f.width x y) 0,
   f.pixels.getD (pixelIndex f.width x y + 1) 0,
   f.pixels.getD (pixelIndex f.width x y + 2) 0)

/-- One channel of the temporal blend (main.rs:270-272):
`((current as u16 * 7 + previous as u16 * 3) / 10) as u8` — `u16`
arithmetic followed by a truncating cast to `u8`. -/
def blendChannel (cur prevb : ℕ) : ℕ := (cur * 7 + prevb * 3) / 10 % 256

/-- The temporal-blend step of the row renderer (main.rs:267-274): blend
against the previous frame's bytes exactly when a previous buffer exists
and the flat index `(y * width + x) * 3 + 2` (computed with the current
frame's width) is inside it; otherwise keep the raw channels. -/
def blendPixel (prev_frame : Option (List ℕ)) (width x y r g b : ℕ) : ℕ × ℕ × ℕ :=
  match prev_frame with
  | none => (r, g, b)
  | some prev =>
    if pixelIndex width x y + 2 < prev.length then
      (blendChannel r (prev.getD (pixelIndex width x y) 0),
       blendChannel g (prev.getD (pixelIndex width x y + 1) 0),
       blendChannel b (prev.getD (pixelIndex width x y + 2) 0))
    else (r, g, b)

/-- The glyph-ramp index `brightness * ASCII_CHARS.len() / 256`
(main.rs:360). -/
def glyphIndex (brightness : ℕ) : ℕ := brightness * ASCII_CHARS.length / 256

/-- `pixel_to_ascii` (main.rs:358-363): mean brightness, ramp index,
ramp lookup. -/
def pixel_to_ascii (r g b : ℕ) : Char :=
  ASCII_CHARS.getD (glyphIndex ((r + g + b) / 3)) (' ')

/-- The escape string `format!("\x1b[38;2;{};{};{}m", r, g, b)`
(main.rs:208). -/
def colorEscape (r g b : ℕ) : String :=
  "\x1b[38;2;" ++ toString r ++ ";" ++ toString g ++ ";" ++ toString b ++ "m"

/-- The precomputed `color_lookup` table (main.rs:203-210): entry `i` is
the escape sequence for the dequantized representative color
`(((i >> 8) & 0xF) * 17, ((i >> 4) & 0xF) * 17, (i & 0xF) * 17)`. -/
def color_lookup : List String :=
  (List.range 4096).map (fun i =>
    colorEscape (((i >>> 8) &&& 0xF) * 17) (((i >>> 4) &&& 0xF) * 17) ((i &&& 0xF) * 17))

/-- `f32::atan2`, modelled exactly over the reals as the argument of the
complex number `x + y·i` (range `(-π, π]`, and `atan2 0 0 = 0`). -/
noncomputable def atan2 (y x : ℝ) : ℝ := Complex.arg ⟨x, y⟩

/-- `f32::to_degrees`. -/
noncomputable def toDegrees (r : ℝ) : ℝ := r * 180 / Real.pi

/-- Angle normalization into `[0, 360)` (main.rs:93-97). -/
noncomputable def normalizeDeg (d : ℝ) : ℝ := if d < 0 then d + 360 else d

/-- The orientation match on the normalized degrees (main.rs:99-108),
arm for arm. -/
noncomputable def classifyDeg (d : ℝ) : SobelEdge :=
  if d ≥ 337.5 ∨ d < 22.5 then SobelEdge.Vertical
  else if 22.5 ≤ d ∧ d < 67.5 then SobelEdge.DiagonalDown
  else if 67.5 ≤ d ∧ d < 112.5 then SobelEdge.Horizontal
  else if 112.5 ≤ d ∧ d < 157.5 then SobelEdge.DiagonalUp
  else if 157.5 ≤ d ∧ d < 202.5 then SobelEdge.Vertical
  else if 202.5 ≤ d ∧ d < 247.5 then SobelEdge.DiagonalDown
  else if 247.5 ≤ d ∧ d < 292.5 then SobelEdge.Horizontal
  else SobelEdge.DiagonalUp

/-- `sobel_detect_edge` (main.rs:48-109): border precheck, mean-brightness
3×3 neighborhood, Sobel kernels, magnitude threshold, orientation
classification.  The integer gradient arithmetic is exact; magnitude and
angle are modelled over the reals. -/
noncomputable def sobel_detect_edge (decoded : DecodedFrame) (x y width height : ℕ)
    (threshold : ℝ) : SobelEdge :=
  if x = 0 ∨ y = 0 ∨ x ≥ width - 1 ∨ y ≥ height - 1 then SobelEdge.None
  else
    let get_brightness : ℕ → ℕ → ℤ := fun px py =>
      (((get_pixel decoded px py).1 + (get_pixel decoded px py).2.1 +
        (get_pixel decoded px py).2.2) / 3 : ℕ)
    let nw := get_brightness (x - 1) (y - 1)
    let n := get_brightness x (y - 1)
    let ne := get_brightness (x + 1) (y - 1)
    let w := get_brightness (x - 1) y
    let e := get_brightness (x + 1) y
    let sw := get_brightness (x - 1) (y + 1)
    let s := get_brightness x (y + 1)
    let se := get_brightness (x + 1) (y + 1)
    let gx := -nw + ne - 2 * w + 2 * e - sw + se
    let gy := -nw - 2 * n - ne + sw + 2 * s + se
    if Real.sqrt ((gx * gx + gy * gy : ℤ) : ℝ) ≤ threshold then SobelEdge.None
    else classifyDeg (normalizeDeg (toDegrees (atan2 (gy : ℝ) (gx : ℝ))))

/-- The adaptive Sobel sample rate (main.rs:224-230). -/
def sobelSampleRate (term_width term_height : ℕ) : ℕ :=
  if term_width * term_height > 200000 then 20
  else if term_width * term_height > 100000 then 10
  else 1

/-- One rendered terminal row (the parallel map body, main.rs:252-304):
nearest-neighbor scaling, temporal blend, sampled edge detection, glyph
choice, and color escapes elided when the quantized color repeats. -/
noncomputable def renderRow (f : DecodedFrame) (prev_frame : Option (List ℕ))
    (term_width term_height sample_rate ty : ℕ) : String :=
  ((List.range term_width).foldl (fun acc tx =>
    let x := tx * f.width / term_width
    let y := ty * f.height / term_height
    let p := get_pixel f x y
    let c := blendPixel prev_frame f.width x y p.1 p.2.1 p.2.2
    let sobel_edge :=
      if tx % sample_rate = 0 ∧ ty % sample_rate = 0 then
        sobel_detect_edge f x y f.width f.height 30
      else SobelEdge.None
    let ascii_char :=
      match sobel_edge with
      | SobelEdge.Horizontal => '═'
      | SobelEdge.Vertical => '║'
      | SobelEdge.DiagonalUp => '/'
      | SobelEdge.DiagonalDown => '\\'
      | SobelEdge.None => pixel_to_ascii c.1 c.2.1 c.2.2
    let color_idx := ((c.1 / 16) <<< 8) ||| ((c.2.1 / 16) <<< 4) ||| (c.2.2 / 16)
    if color_idx ≠ acc.2 then
      (acc.1 ++ color_lookup.getD color_idx emptyStr ++ ascii_char.toString, color_idx)
    else (acc.1 ++ ascii_char.toString, acc.2))
    (emptyStr, USIZE_MAX)).1

/-- All rendered rows of one pass (main.rs:252-305); the rayon parallel
map is order-preserving and side-effect-free, so it is a plain map. -/
noncomputable def renderRows (f : DecodedFrame) (prev_frame : Option (List ℕ))
    (term_width term_height : ℕ) : List String :=
  (List.range term_height).map (fun ty =>
    renderRow f prev_frame term_width term_height (sobelSampleRate term_width term_height) ty)

/-- Row-write count of the diff compositor (main.rs:315-333): with a
memoized previous frame, one write per index whose row is missing from or
differs from the memo; with no memo, one write per row (the full
first-frame repaint). -/
def displayWrites (prev_rows : Option (List String)) (rows : List String) : ℕ :=
  match prev_rows with
  | some prev =>
    ((List.range rows.length).filter (fun row_idx =>
      decide (row_idx ≥ prev.length ∨ rows.getD row_idx emptyStr ≠ prev.getD row_idx emptyStr))).length
  | none => rows.length

/-- The mutable render-loop state (main.rs:198-201): the previous frame's
raw bytes, the pacing skip flag, and the memoized previously displayed
rows. -/
structure LoopState where
  prev_frame : Option (List ℕ)
  should_skip_next_frame : Bool
  prev_rows : Option (List String)

/-- One full render-and-display pass (main.rs:245-341): render all rows,
emit the diff writes, replace `prev_frame`, and set the skip flag from the
measured pass duration.  `prev_rows` is carried over unchanged: the
source's only write to `prev_rows` is its initialization at main.rs:201. -/
noncomputable def fullPass (s : LoopState) (f : DecodedFrame)
    (pass_ms term_width term_height : ℕ) : LoopState × ℕ :=
  let rows := renderRows f s.prev_frame term_width term_height
  (⟨some f.pixels, decide (pass_ms > TARGET_FRAME_TIME_MS), s.prev_rows⟩,
   displayWrites s.prev_rows rows)

/-- Processing of one received frame (main.rs:236-343).  `pass_ms` is the
measured wall-clock duration of the pass in milliseconds (an input of the
model).  A set skip flag consumes the frame into `prev_frame` only, with
zero writes and no duration measurement; otherwise the full pass runs. -/
noncomputable def stepFrame (s : LoopState) (f : DecodedFrame)
    (pass_ms term_width term_height : ℕ) : LoopState × ℕ :=
  if s.should_skip_next_frame then (⟨some f.pixels, false, s.prev_rows⟩, 0)
  else fullPass s f pass_ms term_width term_height

/-- Spec-side definition (the Temporal Blender update as the spec words
it): `round((7·current + 3·previous)/10)` per channel, here with
round-half-up. -/
def spec_blend_round (cur prevb : ℕ) : ℕ := (cur * 7 + prevb * 3 + 5) / 10

theorem ascii_chars_length : ASCII_CHARS.length = 70 := by decide

theorem stepFrame_skip (s : LoopState) (f : DecodedFrame) (ms tw th : ℕ)
    (h : s.should_skip_next_frame = true) :
    stepFrame s f ms tw th = (⟨some f.pixels, false, s.prev_rows⟩, 0) := by
  unfold stepFrame
  rw [h]
  simp

theorem stepFrame_full (s : LoopState) (f : DecodedFrame) (ms tw th : ℕ)
    (h : s.should_skip_next_frame = false) :
    stepFrame s f ms tw th = fullPass s f ms tw th := by
  unfold stepFrame
  rw [h]
  simp

/-- C5: the Edge Detector classifies every border cell (x = 0, y = 0,
x ≥ width − 1 or y ≥ height − 1) as no edge, for every image, regardless
of pixel contrast and of the threshold. -/
theorem sobel_border_no_edge (decoded : DecodedFrame) (x y width height : ℕ) (threshold : ℝ)
    (hb : x = 0 ∨ y = 0 ∨ x ≥ width - 1 ∨ y ≥ height - 1) :
    sobel_detect_edge decoded x y width height threshold = SobelEdge.None := by
  unfold sobel_detect_edge
  rw [if_pos hb]

theorem sobel_border_no_edge_witness :
    ((0 : ℕ) = 0 ∨ (1 : ℕ) = 0 ∨ (0 : ℕ) ≥ 3 - 1 ∨ (1 : ℕ) ≥ 3 - 1) ∧
    sobel_detect_edge ⟨3, 3, List.replicate 27 255⟩ 0 1 3 3 30 = SobelEdge.None :=
  ⟨Or.inl rfl, sobel_border_no_edge _ _ _ _ _ _ (Or.inl rfl)⟩

/-- C7: for brightness values up to 255 the glyph index
`b * ASCII_CHARS.length / 256` is monotone in the brightness and always a
valid ramp index, with no explicit clamp needed. -/
theorem glyph_index_monotone_in_bounds (b₁ b₂ : ℕ) (h12 : b₁ ≤ b₂) (h255 : b₂ ≤ 255) :
    glyphIndex b₁ ≤ glyphIndex b₂ ∧ glyphIndex b₂ < ASCII_CHARS.length := by
  constructor
  · exact Nat.div_le_div_right (Nat.mul_le_mul_right _ h12)
  · have h : glyphIndex b₂ ≤ 255 * ASCII_CHARS.length / 256 :=
      Nat.div_le_div_right (Nat.mul_le_mul_right _ h255)
    have h2 : 255 * ASCII_CHARS.length / 256 < ASCII_CHARS.length := by
      rw [ascii_chars_length]
      decide
    exact lt_of_le_of_lt h h2

theorem glyph_index_monotone_in_bounds_witness :
    ((10 : ℕ) ≤ 200 ∧ (200 : ℕ) ≤ 255) ∧
    (glyphIndex 10 ≤ glyphIndex 200 ∧ glyphIndex 200 < ASCII_CHARS.length) :=
  ⟨⟨by decide, by decide⟩, glyph_index_monotone_in_bounds 10 200 (by decide) (by decide)⟩

/-- C8: quantization (value / 16, i.e. a right shift by 4) is the identity
on each representative value n·17 and dequantization returns exactly n·17;
and entry i of the precomputed color table is the escape sequence for the
dequantized representative color of index i. -/
theorem color_quantization_representatives (n i : ℕ) (hn : n ≤ 15) (hi : i < 4096) :
    (n * 17) / 16 = n ∧ ((n * 17) / 16) * 17 = n * 17 ∧
    color_lookup[i]? =
      some (colorEscape (((i >>> 8) &&& 0xF) * 17) (((i >>> 4) &&& 0xF) * 17) ((i &&& 0xF) * 17)) := by
  have h1 : (n * 17) / 16 = n := by omega
  refine ⟨h1, by rw [h1], ?_⟩
  unfold color_lookup
  rw [List.getElem?_map, List.getElem?_range hi]
  rfl

theorem color_quantization_representatives_witness :
    ((3 : ℕ) ≤ 15 ∧ (123 : ℕ) < 4096) ∧
    ((3 * 17) / 16 = 3 ∧ ((3 * 17) / 16) * 17 = 3 * 17 ∧
     color_lookup[(123 : ℕ)]? =
       some (colorEscape ((((123 : ℕ) >>> 8) &&& 0xF) * 17) ((((123 : ℕ) >>> 4) &&& 0xF) * 17)
         (((123 : ℕ) &&& 0xF) * 17))) :=
  ⟨⟨by decide, by decide⟩, color_quantization_representatives 3 123 (by decide) (by decide)⟩

/-- C2 (code bug): the memoized prior rows are never replaced — stepFrame
leaves prev_rows exactly as it was, on the skip path and on the full
render-and-display path alike, because main.rs never reassigns prev_rows
after its initialization to None at line 201. -/
theorem prev_rows_never_replaced (s : LoopState) (f : DecodedFrame) (pass_ms tw th : ℕ) :
    (stepFrame s f pass_ms tw th).1.prev_rows = s.prev_rows := by
  unfold stepFrame fullPass
  split <;> rfl

/-- C1 (code bug): since prev_rows is never populated, every non-skipped
pass takes the first-frame branch of the compositor and issues one
row-write per terminal row — term_height writes, not zero — even when the
newly rendered rows are identical to the previously displayed ones; and
prev_rows is still empty afterwards. -/
theorem diff_compositor_full_rewrite (s : LoopState) (f : DecodedFrame) (pass_ms tw th : ℕ)
    (hskip : s.should_skip_next_frame = false) (hrows : s.prev_rows = none) :
    (stepFrame s f pass_ms tw th).2 = th ∧
    (stepFrame s f pass_ms tw th).1.prev_rows = none := by
  rw [stepFrame_full s f pass_ms tw th hskip]
  unfold fullPass
  rw [hrows]
  simp [displayWrites, renderRows]

theorem diff_compositor_full_rewrite_witness :
    ((⟨none, false, none⟩ : LoopState).should_skip_next_frame = false ∧
     (⟨none, false, none⟩ : LoopState).prev_rows = none) ∧
    ((stepFrame ⟨none, false, none⟩ ⟨1, 1, [0, 0, 0]⟩ 1 1 1).2 = 1 ∧
     (stepFrame ⟨none, false, none⟩ ⟨1, 1, [0, 0, 0]⟩ 1 1 1).1.prev_rows = none) :=
  ⟨⟨rfl, rfl⟩, diff_compositor_full_rewrite _ _ _ _ _ rfl rfl⟩

/-- C4: when a full pass measures a duration above the 16 ms budget the
skip flag is set — as a function of that duration alone — and the next
received frame is consumed blend-only: zero compositor writes, the
previous-frame buffer replaced by that frame's pixels, the flag cleared
and the row memo untouched. -/
theorem pacing_over_budget_skips_next (s : LoopState) (f₁ f₂ : DecodedFrame)
    (ms₁ ms₂ tw th : ℕ) (hfull : s.should_skip_next_frame = false)
    (hover : ms₁ > TARGET_FRAME_TIME_MS) :
    (stepFrame s f₁ ms₁ tw th).1.should_skip_next_frame = true ∧
    stepFrame (stepFrame s f₁ ms₁ tw th).1 f₂ ms₂ tw th =
      (⟨some f₂.pixels, false, (stepFrame s f₁ ms₁ tw th).1.prev_rows⟩, 0) := by
  have h1 : (stepFrame s f₁ ms₁ tw th).1.should_skip_next_frame = true := by
    rw [stepFrame_full s f₁ ms₁ tw th hfull]
    unfold fullPass
    exact decide_eq_true hover
  exact ⟨h1, stepFrame_skip _ f₂ ms₂ tw th h1⟩

theorem pacing_over_budget_skips_next_witness :
    ((⟨none, false, none⟩ : LoopState).should_skip_next_frame = false ∧
     20 > TARGET_FRAME_TIME_MS) ∧
    ((stepFrame ⟨none, false, none⟩ ⟨1, 1, [0, 0, 0]⟩ 20 1 1).1.should_skip_next_frame = true ∧
     stepFrame (stepFrame ⟨none, false, none⟩ ⟨1, 1, [0, 0, 0]⟩ 20 1 1).1 ⟨1, 1, [9, 9, 9]⟩ 5 1 1 =
       (⟨some [9, 9, 9], false,
         (stepFrame ⟨none, false, none⟩ ⟨1, 1, [0, 0, 0]⟩ 20 1 1).1.prev_rows⟩, 0)) :=
  ⟨⟨rfl, by decide⟩, pacing_over_budget_skips_next _ _ _ _ _ _ _ rfl (by decide)⟩

/-- C9: a skipped frame clears the skip flag (its pass duration is never
measured), so the immediately following received frame always runs the
full render-and-display pass — no two consecutive frames are skipped. -/
theorem no_consecutive_skips (s : LoopState) (f f₂ : DecodedFrame) (ms ms₂ tw th : ℕ)
    (h : s.should_skip_next_frame = true) :
    (stepFrame s f ms tw th).1.should_skip_next_frame = false ∧
    stepFrame (stepFrame s f ms tw th).1 f₂ ms₂ tw th =
      fullPass (stepFrame s f ms tw th).1 f₂ ms₂ tw th := by
  have h1 : (stepFrame s f ms tw th).1.should_skip_next_frame = false := by
    rw [stepFrame_skip s f ms tw th h]
  exact ⟨h1, stepFrame_full _ f₂ ms₂ tw th h1⟩

theorem no_consecutive_skips_witness :
    (⟨none, true, none⟩ : LoopState).should_skip_next_frame = true ∧
    ((stepFrame ⟨none, true, none⟩ ⟨1, 1, [0, 0, 0]⟩ 99 1 1).1.should_skip_next_frame = false ∧
     stepFrame (stepFrame ⟨none, true, none⟩ ⟨1, 1, [0, 0, 0]⟩ 99 1 1).1 ⟨1, 1, [9, 9, 9]⟩ 99 1 1 =
       fullPass (stepFrame ⟨none, true, none⟩ ⟨1, 1, [0, 0, 0]⟩ 99 1 1).1 ⟨1, 1, [9, 9, 9]⟩ 99 1 1) :=
  ⟨rfl, no_consecutive_skips _ _ _ _ _ _ _ rfl⟩

theorem byte_getD_le (l : List ℕ) (hl : ∀ v ∈ l, v ≤ 255) : ∀ i, l.getD i 0 ≤ 255 := by
  induction l with
  | nil => intro i; simp [List.getD]
  | cons a t ih =>
    intro i
    cases i with
    | zero =>
      rw [List.getD_cons_zero]
      exact hl a (List.mem_cons_self a t)
    | succ j =>
      rw [List.getD_cons_succ]
      exact ih (fun v hv => hl v (List.mem_cons_of_mem a hv)) j

/-- C3 counterexample: the blend truncates instead of rounding
(blendChannel 0 3 = 0 while round((7·0 + 3·3)/10) = 1), and on a
dimension mismatch the code still blends whenever the flat index fits —
the byte buffer of a 2×1 previous frame blended into a 1×2 current frame
gives (3,3,3) at cell (0,1), not the raw (0,0,0) the claim requires. -/
theorem temporal_blend_round_counterexample :
    (blendChannel 0 3 = 0 ∧ spec_blend_round 0 3 = 1 ∧
      blendChannel 0 3 ≠ spec_blend_round 0 3) ∧
    ((DecodedFrame.mk 2 1 [0, 0, 0, 10, 10, 10]).width ≠
        (DecodedFrame.mk 1 2 [0, 0, 0, 0, 0, 0]).width ∧
      blendPixel (some (DecodedFrame.mk 2 1 [0, 0, 0, 10, 10, 10]).pixels)
        (DecodedFrame.mk 1 2 [0, 0, 0, 0, 0, 0]).width 0 1 0 0 0 = (3, 3, 3)) := by
  decide

/-- C3 (amended): with no previous buffer the raw channels pass through;
with a previous buffer the blend applies exactly when the flat index
(y·width+x)·3+2 — computed with the current frame's width, with no
dimension comparison — is inside that buffer, and then each channel is the
truncating floor((7·current + 3·previous)/10), which for byte inputs
always lies in [0, 255]; when the index is out of range the raw channels
pass through. -/
theorem temporal_blend_floor (prev : List ℕ) (width x y r g b : ℕ)
    (hr : r ≤ 255) (hg : g ≤ 255) (hb : b ≤ 255) (hp : ∀ v ∈ prev, v ≤ 255) :
    blendPixel none width x y r g b = (r, g, b) ∧
    (pixelIndex width x y + 2 < prev.length →
      blendPixel (some prev) width x y r g b =
        ((r * 7 + prev.getD (pixelIndex width x y) 0 * 3) / 10,
         (g * 7 + prev.getD (pixelIndex width x y + 1) 0 * 3) / 10,
         (b * 7 + prev.getD (pixelIndex width x y + 2) 0 * 3) / 10) ∧
      (r * 7 + prev.getD (pixelIndex width x y) 0 * 3) / 10 ≤ 255 ∧
      (g * 7 + prev.getD (pixelIndex width x y + 1) 0 * 3) / 10 ≤ 255 ∧
      (b * 7 + prev.getD (pixelIndex width x y + 2) 0 * 3) / 10 ≤ 255) ∧
    (¬ pixelIndex width x y + 2 < prev.length →
      blendPixel (some prev) width x y r g b = (r, g, b)) := by
  have b0 := byte_getD_le prev hp (pixelIndex width x y)
  have b1 := byte_getD_le prev hp (pixelIndex width x y + 1)
  have b2 := byte_getD_le prev hp (pixelIndex width x y + 2)
  refine ⟨rfl, ?_, ?_⟩
  · intro hidx
    simp only [blendPixel, blendChannel]
    rw [if_pos hidx]
    refine ⟨?_, by omega, by omega, by omega⟩
    simp only [Prod.mk.injEq]
    refine ⟨by omega, by omega, by omega⟩
  · intro hidx
    simp only [blendPixel]
    rw [if_neg hidx]

theorem temporal_blend_floor_witness :
    ((100 : ℕ) ≤ 255 ∧ (∀ v ∈ ([7, 14, 21] : List ℕ), v ≤ 255)) ∧
    blendPixel (some [7, 14, 21]) 1 0 0 100 150 200 =
      ((100 * 7 + ([7, 14, 21] : List ℕ).getD (pixelIndex 1 0 0) 0 * 3) / 10,
       (150 * 7 + ([7, 14, 21] : List ℕ).getD (pixelIndex 1 0 0 + 1) 0 * 3) / 10,
       (200 * 7 + ([7, 14, 21] : List ℕ).getD (pixelIndex 1 0 0 + 2) 0 * 3) / 10) :=
  ⟨⟨by decide, by decide⟩,
   ((temporal_blend_floor [7, 14, 21] 1 0 0 100 150 200 (by decide) (by decide) (by decide)
      (by decide)).2.1 (by decide)).1⟩

theorem pixelIndex_lt (w h x y : ℕ) (hx : x < w) (hy : y < h) :
    pixelIndex w x y + 2 < 3 * (w * h) := by
  unfold pixelIndex
  have h1 : y * w + x < h * w := by
    have h2 : y * w + x < (y + 1) * w := by
      rw [add_mul, one_mul]
      exact Nat.add_lt_add_left hx _
    exact lt_of_lt_of_le h2 (Nat.mul_le_mul_right w hy)
  have h3 : (y * w + x) * 3 + 2 < (h * w) * 3 := by linarith
  rw [Nat.mul_comm w h]
  linarith

theorem scale_index_lt (t tmax dim : ℕ) (ht : t < tmax) (hdim : 1 ≤ dim) :
    t * dim / tmax < dim := by
  apply Nat.div_lt_of_lt_mul
  exact (Nat.mul_lt_mul_right hdim).mpr ht

/-- C10: nearest-neighbor scaling always lands strictly inside the frame,
so the row renderer's pixel read is inside the byte buffer, and — given
the border precheck — every 3×3 neighbor index used by the edge detector
is inside the byte buffer as well: no access faults. -/
theorem renderer_access_in_bounds (f : DecodedFrame) (tw th tx ty : ℕ)
    (htx : tx < tw) (hty : ty < th) (hw : 1 ≤ f.width) (hh : 1 ≤ f.height)
    (hlen : f.pixels.length = 3 * (f.width * f.height)) :
    tx * f.width / tw < f.width ∧ ty * f.height / th < f.height ∧
    pixelIndex f.width (tx * f.width / tw) (ty * f.height / th) + 2 < f.pixels.length ∧
    (∀ x y i j : ℕ,
      ¬(x = 0 ∨ y = 0 ∨ x ≥ f.width - 1 ∨ y ≥ f.height - 1) → i ≤ 2 → j ≤ 2 →
      pixelIndex f.width (x + i - 1) (y + j - 1) + 2 < f.pixels.length) := by
  have hx := scale_index_lt tx tw f.width htx hw
  have hy := scale_index_lt ty th f.height hty hh
  refine ⟨hx, hy, ?_, ?_⟩
  · rw [hlen]
    exact pixelIndex_lt _ _ _ _ hx hy
  · intro x y i j hin hi hj
    push_neg at hin
    obtain ⟨hx0, hy0, hxw, hyh⟩ := hin
    rw [hlen]
    apply pixelIndex_lt
    · omega
    · omega

theorem renderer_access_in_bounds_witness :
    ((1 : ℕ) < 3 ∧ (List.replicate 27 (0 : ℕ)).length = 3 * (3 * 3)) ∧
    ((1 : ℕ) * 3 / 3 < 3 ∧ (1 : ℕ) * 3 / 3 < 3 ∧
     pixelIndex 3 (1 * 3 / 3) (1 * 3 / 3) + 2 < (List.replicate 27 (0 : ℕ)).length ∧
     (∀ x y i j : ℕ, ¬(x = 0 ∨ y = 0 ∨ x ≥ 3 - 1 ∨ y ≥ 3 - 1) → i ≤ 2 → j ≤ 2 →
       pixelIndex 3 (x + i - 1) (y + j - 1) + 2 < (List.replicate 27 (0 : ℕ)).length)) :=
  ⟨⟨by decide, by decide⟩,
   renderer_access_in_bounds ⟨3, 3, List.replicate 27 0⟩ 3 3 1 1 (by decide) (by decide)
     (by decide) (by decide) (by decide)⟩

theorem classify_v_low (d : ℝ) (h : d < 22.5) : classifyDeg d = SobelEdge.Vertical := by
  unfold classifyDeg
  rw [if_pos (Or.inr h)]

theorem classify_v_high (d : ℝ) (h : d ≥ 337.5) : classifyDeg d = SobelEdge.Vertical := by
  unfold classifyDeg
  rw [if_pos (Or.inl h)]

theorem classify_dd_1 (d : ℝ) (h1 : 22.5 ≤ d) (h2 : d < 67.5) :
    classifyDeg d = SobelEdge.DiagonalDown := by
  unfold classifyDeg
  rw [if_neg (by push_neg; exact ⟨by linarith, h1⟩), if_pos ⟨h1, h2⟩]

theorem classify_h_2 (d : ℝ) (h1 : 67.5 ≤ d) (h2 : d < 112.5) :
    classifyDeg d = SobelEdge.Horizontal := by
  unfold classifyDeg
  rw [if_neg (by push_neg; exact ⟨by linarith, by linarith⟩),
    if_neg (by push_neg; intro hq; linarith),
    if_pos ⟨h1, h2⟩]

theorem classify_du_3 (d : ℝ) (h1 : 112.5 ≤ d) (h2 : d < 157.5) :
    classifyDeg d = SobelEdge.DiagonalUp := by
  unfold classifyDeg
  rw [if_neg (by push_neg; exact ⟨by linarith, by linarith⟩),
    if_neg (by push_neg; intro hq; linarith),
    if_neg (by push_neg; intro hq; linarith),
    if_pos ⟨h1, h2⟩]

theorem classify_v_4 (d : ℝ) (h1 : 157.5 ≤ d) (h2 : d < 202.5) :
    classifyDeg d = SobelEdge.Vertical := by
  unfold classifyDeg
  rw [if_neg (by push_neg; exact ⟨by linarith, by linarith⟩),
    if_neg (by push_neg; intro hq; linarith),
    if_neg (by push_neg; intro hq; linarith),
    if_neg (by push_neg; intro hq; linarith),
    if_pos ⟨h1, h2⟩]

theorem classify_dd_5 (d : ℝ) (h1 : 202.5 ≤ d) (h2 : d < 247.5) :
    classifyDeg d = SobelEdge.DiagonalDown := by
  unfold classifyDeg
  rw [if_neg (by push_neg; exact ⟨by linarith, by linarith⟩),
    if_neg (by push_neg; intro hq; linarith),
    if_neg (by push_neg; intro hq; linarith),
    if_neg (by push_neg; intro hq; linarith),
    if_neg (by push_neg; intro hq; linarith),
    if_pos ⟨h1, h2⟩]

theorem classify_h_6 (d : ℝ) (h1 : 247.5 ≤ d) (h2 : d < 292.5) :
    classifyDeg d = SobelEdge.Horizontal := by
  unfold classifyDeg
  rw [if_neg (by push_neg; exact ⟨by linarith, by linarith⟩),
    if_neg (by push_neg; intro hq; linarith),
    if_neg (by push_neg; intro hq; linarith),
    if_neg (by push_neg; intro hq; linarith),
    if_neg (by push_neg; intro hq; linarith),
    if_neg (by push_neg; intro hq; linarith),
    if_pos ⟨h1, h2⟩]

theorem classify_du_7 (d : ℝ) (h1 : 292.5 ≤ d) (h2 : d < 337.5) :
    classifyDeg d = SobelEdge.DiagonalUp := by
  unfold classifyDeg
  rw [if_neg (by push_neg; exact ⟨by linarith, by linarith⟩),
    if_neg (by push_neg; intro hq; linarith),
    if_neg (by push_neg; intro hq; linarith),
    if_neg (by push_neg; intro hq; linarith),
    if_neg (by push_neg; intro hq; linarith),
    if_neg (by push_neg; intro hq; linarith),
    if_neg (by push_neg; intro hq; linarith)]

/-- C6: the orientation class is a function of the atan2 angle normalized
into [0°, 360°) through eight 45° bands: opposite-direction bands (d and
d ± 180°) give the same class, the bands centered on 0° and 180° give the
vertical-edge class, those centered on 90° and 270° the horizontal-edge
class, and the two remaining band pairs the up-diagonal and down-diagonal
classes. -/
theorem sobel_orientation_bands (d : ℝ) (h0 : 0 ≤ d) (h1 : d < 360) :
    classifyDeg d = classifyDeg (if d < 180 then d + 180 else d - 180) ∧
    ((d < 22.5 ∨ 337.5 ≤ d) → classifyDeg d = SobelEdge.Vertical) ∧
    (157.5 ≤ d ∧ d < 202.5 → classifyDeg d = SobelEdge.Vertical) ∧
    ((67.5 ≤ d ∧ d < 112.5) ∨ (247.5 ≤ d ∧ d < 292.5) →
      classifyDeg d = SobelEdge.Horizontal) ∧
    ((112.5 ≤ d ∧ d < 157.5) ∨ (292.5 ≤ d ∧ d < 337.5) →
      classifyDeg d = SobelEdge.DiagonalUp) ∧
    ((22.5 ≤ d ∧ d < 67.5) ∨ (202.5 ≤ d ∧ d < 247.5) →
      classifyDeg d = SobelEdge.DiagonalDown) := by
  refine ⟨?_, ?_, ?_, ?_, ?_, ?_⟩
  · rcases lt_or_le d 22.5 with hA | hA
    · rw [if_pos (show d < 180 by linarith), classify_v_low d hA,
        classify_v_4 (d + 180) (by linarith) (by linarith)]
    · rcases lt_or_le d 67.5 with hB | hB
      · rw [if_pos (show d < 180 by linarith), classify_dd_1 d hA hB,
          classify_dd_5 (d + 180) (by linarith) (by linarith)]
      · rcases lt_or_le d 112.5 with hC | hC
        · rw [if_pos (show d < 180 by linarith), classify_h_2 d hB hC,
            classify_h_6 (d + 180) (by linarith) (by linarith)]
        · rcases lt_or_le d 157.5 with hD | hD
          · rw [if_pos (show d < 180 by linarith), classify_du_3 d hC hD,
              classify_du_7 (d + 180) (by linarith) (by linarith)]
          · rcases lt_or_le d 180 with hE | hE
            · rw [if_pos hE, classify_v_4 d hD (by linarith),
                classify_v_high (d + 180) (by linarith)]
            · rcases lt_or_le d 202.5 with hF | hF
              · rw [if_neg (not_lt.mpr hE), classify_v_4 d hD hF,
                  classify_v_low (d - 180) (by linarith)]
              · rcases lt_or_le d 247.5 with hG | hG
                · rw [if_neg (not_lt.mpr hE), classify_dd_5 d hF hG,
                    classify_dd_1 (d - 180) (by linarith) (by linarith)]
                · rcases lt_or_le d 292.5 with hH | hH
                  · rw [if_neg (not_lt.mpr hE), classify_h_6 d hG hH,
                      classify_h_2 (d - 180) (by linarith) (by linarith)]
                  · rcases lt_or_le d 337.5 with hI | hI
                    · rw [if_neg (not_lt.mpr hE), classify_du_7 d hH hI,
                        classify_du_3 (d - 180) (by linarith) (by linarith)]
                    · rw [if_neg (not_lt.mpr hE), classify_v_high d hI,
                        classify_v_4 (d - 180) (by linarith) (by linarith)]
  · rintro (h | h)
    · exact classify_v_low d h
    · exact classify_v_high d h
  · rintro ⟨ha, hb⟩
    exact classify_v_4 d ha hb
  · rintro (⟨ha, hb⟩ | ⟨ha, hb⟩)
    · exact classify_h_2 d ha hb
    · exact classify_h_6 d ha hb
  · rintro (⟨ha, hb⟩ | ⟨ha, hb⟩)
    · exact classify_du_3 d ha hb
    · exact classify_du_7 d ha hb
  · rintro (⟨ha, hb⟩ | ⟨ha, hb⟩)
    · exact classify_dd_1 d ha hb
    · exact classify_dd_5 d ha hb

theorem sobel_orientation_bands_witness :
    ((0 : ℝ) ≤ 100 ∧ (100 : ℝ) < 360) ∧ classifyDeg 100 = SobelEdge.Horizontal :=
  ⟨⟨by norm_num, by norm_num⟩,
   (sobel_orientation_bands 100 (by norm_num) (by norm_num)).2.2.2.1
     (Or.inl ⟨by norm_num, by norm_num⟩)⟩
